import Mathlib

/-!
Verification of the plant-scheduling simulator (stream.py).

The development shallowly embeds the computational core of the program:

* an IEEE-style extended value type `FVal` (finite rational, +inf, -inf, NaN)
  modelling the pandas float arithmetic of the unguarded divisions
  (Material Base Builder, line 176, and the per-week allocator);
* an exact-arithmetic (rational) model of the Scenario Allocator
  (`calcular_escenario`, lines 179-200), valid on inputs where no division
  by zero occurs;
* the Inventory Rollforward Engine (lines 217-262) as a fold with an
  explicit (material, closing quantity, closing value) accumulator;
* the parameter resolver `obtener_param` (lines 141-149) over a small
  model of Python cell values and float() coercion;
* the scenario comparison table and ranking (lines 322-361);
* the scenario-selection control flow (lines 298-316).
-/

namespace Noel

/-! ## IEEE-style extended values

pandas stores the tables as float64 columns; the divisions of the pipeline
can produce +inf, -inf and NaN.  `FVal` models a float64 as an exact
rational together with the three special values (rounding is irrelevant to
the claims, which are about whether non-numeric values arise and
propagate). -/

inductive FVal where
  | fin : ℚ → FVal
  | inf : FVal
  | ninf : FVal
  | nan : FVal
deriving DecidableEq, Repr

namespace FVal

/-- IEEE negation. -/
def neg : FVal → FVal
  | fin q => fin (-q)
  | inf => ninf
  | ninf => inf
  | nan => nan

/-- IEEE addition: NaN absorbs, inf + (-inf) is NaN. -/
def add : FVal → FVal → FVal
  | nan, _ => nan
  | _, nan => nan
  | fin a, fin b => fin (a + b)
  | fin _, inf => inf
  | inf, fin _ => inf
  | fin _, ninf => ninf
  | ninf, fin _ => ninf
  | inf, inf => inf
  | ninf, ninf => ninf
  | inf, ninf => nan
  | ninf, inf => nan

/-- IEEE subtraction. -/
def sub (a b : FVal) : FVal := add a (neg b)

/-- IEEE multiplication: NaN absorbs, 0 * (+-inf) is NaN. -/
def mul : FVal → FVal → FVal
  | nan, _ => nan
  | _, nan => nan
  | fin a, fin b => fin (a * b)
  | fin a, inf => if 0 < a then inf else if a < 0 then ninf else nan
  | inf, fin a => if 0 < a then inf else if a < 0 then ninf else nan
  | fin a, ninf => if 0 < a then ninf else if a < 0 then inf else nan
  | ninf, fin a => if 0 < a then ninf else if a < 0 then inf else nan
  | inf, inf => inf
  | ninf, ninf => inf
  | inf, ninf => ninf
  | ninf, inf => ninf

/-- IEEE division: finite/0 is signed inf (NaN for 0/0), inf/inf is NaN.
This is the numpy behaviour of a pandas column division; no exception is
raised. -/
def div : FVal → FVal → FVal
  | nan, _ => nan
  | _, nan => nan
  | fin a, fin b =>
      if b = 0 then (if a = 0 then nan else if 0 < a then inf else ninf)
      else fin (a / b)
  | fin _, inf => fin 0
  | fin _, ninf => fin 0
  | inf, fin b => if b < 0 then ninf else inf
  | ninf, fin b => if b < 0 then inf else ninf
  | inf, inf => nan
  | inf, ninf => nan
  | ninf, inf => nan
  | ninf, ninf => nan

/-- Python float comparison a > b (False whenever NaN is involved). -/
def gtb : FVal → FVal → Bool
  | nan, _ => false
  | _, nan => false
  | fin a, fin b => decide (b < a)
  | inf, inf => false
  | inf, _ => true
  | ninf, _ => false
  | fin _, inf => false
  | fin _, ninf => true

/-- Python max(x, 0): returns 0 exactly when 0 > x, so NaN stays NaN
(models the lambda of line 200). -/
def pymaxZero (x : FVal) : FVal := if gtb (fin 0) x then fin 0 else x

/-- pandas Series.fillna(0): replaces NaN (and only NaN) by 0. -/
def fillna : FVal → FVal
  | nan => fin 0
  | x => x

/-- Sum of a list of float values (as a pandas column sum over
values none of which is NaN; NaN inputs never reach the sums used here). -/
def lsum (l : List FVal) : FVal := l.foldr add (fin 0)

/-- True exactly on finite (numeric, non-NaN, non-infinite) values. -/
def isFin : FVal → Bool
  | fin _ => true
  | _ => false

end FVal

/-! ## Float model of the Material Base Builder division and the allocator

Line 176 computes required hours as demand / units-per-hour with no
guard.  The fragment below follows lines 176 and 184-202 for a single
week of material rows, in FVal arithmetic. -/

/-- One (material, week) input row: weekly demand and units per hour,
as float values. -/
structure FRow where
  demanda : FVal
  uph : FVal

/-- Line 176: Horas_Necesarias = Demanda semanal / Unidades por hora
(unguarded division). -/
def fHorasNecesarias (r : FRow) : FVal := FVal.div r.demanda r.uph

/-- Line 181: Total_Horas_Req_Semana, the week's sum of required hours. -/
def fTotalHoras (rows : List FRow) : FVal :=
  FVal.lsum (rows.map fHorasNecesarias)

/-- Line 185 (demand-driven mode): Turnos disponibles =
Total_Horas_Req_Semana / horas_por_turno. -/
def fTurnosDemanda (rows : List FRow) (hps : FVal) : FVal :=
  FVal.div (fTotalHoras rows) hps

/-- Line 190: Horas_Capacidad_Total = Turnos disponibles * horas_por_turno. -/
def fHorasCapacidad (turnos hps : FVal) : FVal := FVal.mul turnos hps

/-- Line 191: Diferencia_Horas = Horas_Capacidad_Total -
Total_Horas_Req_Semana. -/
def fDiferenciaHoras (cap total : FVal) : FVal := FVal.sub cap total

/-- Lines 195-196: Participacion = Horas_Necesarias /
Total_Horas_Req_Semana, then fillna(0).  The fillna only catches the NaN
of a 0/0; an inf/inf also yields NaN and is caught, but a nonzero/0
yields a signed infinity which fillna does not touch. -/
def fParticipacion (hn total : FVal) : FVal :=
  FVal.fillna (FVal.div hn total)

/-- Line 197: Horas_Ajuste = Participacion * Diferencia_Horas. -/
def fHorasAjuste (part dif : FVal) : FVal := FVal.mul part dif

/-- Lines 199-200: Horas_Finales_Asignadas = max(Horas_Necesarias +
Horas_Ajuste, 0), with Python max semantics. -/
def fHorasFinales (hn ajuste : FVal) : FVal :=
  FVal.pymaxZero (FVal.add hn ajuste)

/-- The per-row final allocated hours for one week of rows, given the
week's available shifts and the hours-per-shift parameter
(availability-driven scenarios, lines 187-200). -/
def fAsignadas (rows : List FRow) (turnos hps : FVal) : List FVal :=
  let total := fTotalHoras rows
  let cap := fHorasCapacidad turnos hps
  let dif := fDiferenciaHoras cap total
  rows.map (fun r =>
    fHorasFinales (fHorasNecesarias r)
      (fHorasAjuste (fParticipacion (fHorasNecesarias r) total) dif))

/-- Demand-driven per-week gap (lines 184-191): available hours minus
required hours when shifts are derived from demand. -/
def fGapDemanda (rows : List FRow) (hps : FVal) : FVal :=
  fDiferenciaHoras (fHorasCapacidad (fTurnosDemanda rows hps) hps)
    (fTotalHoras rows)

/-! ## Exact-arithmetic model of the Scenario Allocator (one week)

The same fragment (lines 176, 190-200) over the rationals.  This model
matches the float pipeline exactly whenever no division by zero occurs,
which the theorems below guarantee through the hypotheses that each
units-per-hour is nonzero and (where the participation division is
involved) that the week's total required hours is nonzero. -/

/-- One (material, week) demand row joined with its capacity attributes:
weekly demand and units per hour. -/
structure MatRow where
  demanda : ℚ
  uph : ℚ

/-- Line 176: Horas_Necesarias = Demanda semanal / Unidades por hora. -/
def horasNecesarias (r : MatRow) : ℚ := r.demanda / r.uph

/-- Line 181: Total_Horas_Req_Semana for the week. -/
def totalHoras (rows : List MatRow) : ℚ := (rows.map horasNecesarias).sum

/-- Line 185 (demand-driven mode): Turnos disponibles =
Total_Horas_Req_Semana / horas_por_turno. -/
def turnosDemanda (rows : List MatRow) (hps : ℚ) : ℚ := totalHoras rows / hps

/-- Line 190: Horas_Capacidad_Total = Turnos disponibles * horas_por_turno. -/
def horasCapacidad (turnos hps : ℚ) : ℚ := turnos * hps

/-- Line 191: Diferencia_Horas. -/
def diferenciaHoras (cap total : ℚ) : ℚ := cap - total

/-- Lines 195-196: Participacion with its fillna(0).  In float the
fillna turns the NaN of the 0/0 case into 0; the branch below is that
guard.  (For hn nonzero and total zero the float value would be a signed
infinity; the allocator theorems therefore assume total is nonzero.) -/
def participacion (hn total : ℚ) : ℚ :=
  if hn = 0 ∧ total = 0 then 0 else hn / total

/-- Line 197: Horas_Ajuste = Participacion * Diferencia_Horas. -/
def horasAjuste (part dif : ℚ) : ℚ := part * dif

/-- Line 199: the pre-clamp allocation Horas_Necesarias + Horas_Ajuste
of one row, within its week. -/
def horasPreclamp (rows : List MatRow) (cap : ℚ) (r : MatRow) : ℚ :=
  horasNecesarias r +
    horasAjuste (participacion (horasNecesarias r) (totalHoras rows))
      (diferenciaHoras cap (totalHoras rows))

/-- Line 200: Horas_Finales_Asignadas = max(pre-clamp allocation, 0). -/
def horasFinalesAsignadas (rows : List MatRow) (cap : ℚ) (r : MatRow) : ℚ :=
  max (horasPreclamp rows cap r) 0

/-- The week's total of final allocated hours across materials. -/
def sumaAsignadas (rows : List MatRow) (cap : ℚ) : ℚ :=
  (rows.map (horasFinalesAsignadas rows cap)).sum

/-! ## Inventory Rollforward Engine (lines 217-262)

After sorting by (Material, Semana_Num), the loop of lines 227-262 walks
the rows carrying (previous material, previous closing quantity, previous
closing value); on a material change the static opening inventory of the
capacity table is used instead. -/

/-- One pre-rollforward row: material code, weekly demand, the static
opening inventory quantity and value of the capacity table, the produced
units (Unidades_A_Producir) and the unit total cost (Costo unitario
total) of this row's week. -/
structure RowIn where
  material : String
  demanda : ℚ
  invIni : ℚ
  valIni : ℚ
  qtyProd : ℚ
  costProd : ℚ

/-- One rollforward output row: the input fields together with the six
computed columns of lines 253-258 (opening quantity/value, weighted
average cost, closing quantity/value, COGS) and the quantity sold of
line 247. -/
structure RowOut where
  material : String
  demanda : ℚ
  invIni : ℚ
  valIni : ℚ
  qtyProd : ℚ
  costProd : ℚ
  invInicialUnd : ℚ
  invInicialValor : ℚ
  wac : ℚ
  qtySold : ℚ
  invFinalUnd : ℚ
  invFinalValor : ℚ
  cogs : ℚ

/-- The loop body, lines 238-258, at a given opening state. -/
def stepRow (qtyIni valIni : ℚ) (r : RowIn) : RowOut :=
  let valProd := r.qtyProd * r.costProd
  let totalQty := qtyIni + r.qtyProd
  let totalVal := valIni + valProd
  let wac := if 0 < totalQty then totalVal / totalQty else r.costProd
  let qtySold := min r.demanda totalQty
  let cogsTotal := qtySold * wac
  let qtyFinal := totalQty - qtySold
  let valFinal := qtyFinal * wac
  ⟨r.material, r.demanda, r.invIni, r.valIni, r.qtyProd, r.costProd,
    qtyIni, valIni, wac, qtySold, qtyFinal, valFinal, cogsTotal⟩

/-- The loop of lines 227-262: the accumulator is the previous row's
(material, closing quantity, closing value), none before the first row. -/
def rollforwardAux (prev : Option (String × ℚ × ℚ)) : List RowIn → List RowOut
  | [] => []
  | r :: rest =>
    let ini : ℚ × ℚ :=
      match prev with
      | some (m, q, v) => if r.material = m then (q, v) else (r.invIni, r.valIni)
      | none => (r.invIni, r.valIni)
    let out := stepRow ini.1 ini.2 r
    out :: rollforwardAux (some (r.material, out.invFinalUnd, out.invFinalValor)) rest

/-- The full rollforward over the (Material, Semana_Num)-sorted rows. -/
def rollforward (l : List RowIn) : List RowOut := rollforwardAux none l

/-- Relation between two consecutive rollforward output rows: a row of
the same material as its predecessor opens with the predecessor's closing
state, and a row starting a new material opens with its static opening
inventory. -/
def contig (a b : RowOut) : Prop :=
  (b.material = a.material →
    b.invInicialUnd = a.invFinalUnd ∧ b.invInicialValor = a.invFinalValor) ∧
  (b.material ≠ a.material →
    b.invInicialUnd = b.invIni ∧ b.invInicialValor = b.valIni)

/-! ## Weekly summary rows and the comparison table (lines 322-361) -/

/-- The per-(week, scenario) summary fields the comparison consumes:
Costo_Mercancia_Vendida, Costo Capital, and the average-inventory
valuation metric of line 290. -/
structure SemWeek where
  cogs : ℚ
  costoCapital : ℚ
  valorInvProm : ℚ

/-- One scenario: its name and its weekly summary rows in ascending week
order (resumen_agrupado is sorted by Semana_Num at line 272, and the
re-sort of line 331 preserves that order). -/
structure Escenario where
  nombre : String
  semanas : List SemWeek

/-- Line 322: CMV Total, the scenario's summed cost of goods sold. -/
def cmvTotal (e : Escenario) : ℚ := (e.semanas.map SemWeek.cogs).sum

/-- Line 322: Costo Capital Total, the scenario's summed capital cost. -/
def costoCapitalTotal (e : Escenario) : ℚ :=
  (e.semanas.map SemWeek.costoCapital).sum

/-- Lines 329-338: Delta Valor Inv = last week's average-inventory
valuation metric minus the first week's (0 for an empty scenario). -/
def deltaValorInv (e : Escenario) : ℚ :=
  match e.semanas with
  | [] => 0
  | w :: ws => (List.getLast (w :: ws) (by simp)).valorInvProm - w.valorInvProm

/-- Lines 343-347: Impacto Total FCL = CMV Total + Costo Capital Total +
Delta Valor Inv. -/
def impactoTotalFCL (e : Escenario) : ℚ :=
  cmvTotal e + costoCapitalTotal e + deltaValorInv e

/-- Ascending insertion by Impacto Total FCL. -/
def insertaAsc (e : Escenario) : List Escenario → List Escenario
  | [] => [e]
  | f :: fs =>
    if impactoTotalFCL e ≤ impactoTotalFCL f then e :: f :: fs
    else f :: insertaAsc e fs

/-- Line 353: the comparison rows sorted ascending by Impacto Total FCL. -/
def ordenaPorImpacto : List Escenario → List Escenario
  | [] => []
  | e :: es => insertaAsc e (ordenaPorImpacto es)

/-- Line 356: the best scenario is the first row of the sorted table. -/
def mejorEscenario (l : List Escenario) : Option Escenario :=
  (ordenaPorImpacto l).head?

/-- Line 360: the worst scenario is the last row of the sorted table. -/
def peorEscenario (l : List Escenario) : Option Escenario :=
  (ordenaPorImpacto l).getLast?

/-- Line 360: ahorro = worst impact minus best impact. -/
def ahorro (l : List Escenario) : ℚ :=
  match mejorEscenario l, peorEscenario l with
  | some b, some w => impactoTotalFCL w - impactoTotalFCL b
  | _, _ => 0

/-! ## Parameter resolver (lines 141-149) -/

/-- A cell of the Valor column: a number or a text. -/
inductive CellVal where
  | num : ℚ → CellVal
  | str : String → CellVal
deriving DecidableEq, Repr

/-- A Python value returned by obtener_param: None (the usual default),
a float, or a string. -/
inductive PyVal where
  | none : PyVal
  | num : ℚ → PyVal
  | str : String → PyVal
deriving DecidableEq, Repr

/-- Python str.strip() (used on the Parametro column at line 141 and by
float() on its argument): removes leading and trailing whitespace. -/
def pyStrip (s : String) : String :=
  String.mk
    (((s.data.dropWhile Char.isWhitespace).reverse.dropWhile
      Char.isWhitespace).reverse)

/-- Python str.replace(',', '.') on a cell text. -/
def pyReplaceComma (s : String) : String :=
  String.mk (s.data.map (fun c => if c = ',' then '.' else c))

/-- Natural value of a digit run. -/
def digitsVal (l : List Char) : ℕ :=
  l.foldl (fun a c => 10 * a + (c.toNat - 48)) 0

/-- Exponent part of a Python float literal: the remaining characters
after the mantissa and the optional e-sign, which must be a nonempty
digit run ending the string. -/
def parseExpDigits (m : ℚ) (pos : Bool) (l : List Char) : Option ℚ :=
  let ds := l.takeWhile Char.isDigit
  let r := l.dropWhile Char.isDigit
  if ds.isEmpty ∨ ¬ r.isEmpty then Option.none
  else Option.some (if pos then m * 10 ^ digitsVal ds else m / 10 ^ digitsVal ds)

/-- Optional exponent after the mantissa of a Python float literal. -/
def parseExpPart (m : ℚ) : List Char → Option ℚ
  | [] => Option.some m
  | c :: r =>
    if c = 'e' ∨ c = 'E' then
      match r with
      | '+' :: r2 => parseExpDigits m true r2
      | '-' :: r2 => parseExpDigits m false r2
      | r2 => parseExpDigits m true r2
    else Option.none

/-- Unsigned decimal Python float literal: digits with an optional
fractional part (at least one digit overall) and an optional exponent. -/
def parseUnsigned (l : List Char) : Option ℚ :=
  let ds := l.takeWhile Char.isDigit
  let r1 := l.dropWhile Char.isDigit
  match r1 with
  | '.' :: r2 =>
    let fs := r2.takeWhile Char.isDigit
    let r3 := r2.dropWhile Char.isDigit
    if ds.isEmpty ∧ fs.isEmpty then Option.none
    else
      parseExpPart ((digitsVal ds : ℚ) + (digitsVal fs : ℚ) / 10 ^ fs.length) r3
  | _ =>
    if ds.isEmpty then Option.none else parseExpPart (digitsVal ds : ℚ) r1

/-- Python float(s) on a string, modelled for the decimal literal forms
(optional surrounding whitespace, optional sign, digits with optional
fraction and exponent); the special literals inf, infinity and nan are
not modelled and no theorem below applies obtener_param to them.
Returns none exactly when float(s) raises ValueError on such literals. -/
def pyFloat? (s : String) : Option ℚ :=
  match (pyStrip s).data with
  | '+' :: r => parseUnsigned r
  | '-' :: r => (parseUnsigned r).map Neg.neg
  | r => parseUnsigned r

/-- Lines 147-149 applied to the first matching cell: a numeric cell is
returned as a float; a text cell has commas replaced by periods, is
returned as a float when the conversion succeeds, and as the replaced
text itself (the rebound variable valor) when float() raises. -/
def coerceVal : CellVal → PyVal
  | CellVal.num q => PyVal.num q
  | CellVal.str s =>
    let s2 := pyReplaceComma s
    match pyFloat? s2 with
    | Option.some q => PyVal.num q
    | Option.none => PyVal.str s2

/-- Lines 143-149 (with the name trimming of line 141 applied to the
Parametro column): filter the parameter table to the rows whose trimmed
name equals the requested name, return the default if none matches, and
otherwise coerce the first matching row's value.  The function is total:
the bare except of line 149 means no error escapes. -/
def obtener_param (tabla : List (String × CellVal)) (nombre : String)
    (default : PyVal) : PyVal :=
  match tabla.find? (fun p => pyStrip p.1 == nombre) with
  | Option.none => default
  | Option.some p => coerceVal p.2

/-! ## Scenario selection (lines 298-316) -/

/-- Lines 302-316: the scenarios actually computed, as a function of
which availability columns are present.  Each present column appends its
scenario; the demand-driven scenario is appended unconditionally. -/
def escenariosEjecutados (hayParo hayNoParo : Bool) : List String :=
  (if hayParo then ["Paro Programado"] else []) ++
    (if hayNoParo then ["No Paro (Full)"] else []) ++ ["Siguiendo Demanda"]

/-! ## Theorems -/

lemma horasPreclamp_eq (rows : List MatRow) (cap : ℚ)
    (hT : totalHoras rows ≠ 0) (r : MatRow) :
    horasPreclamp rows cap r = horasNecesarias r * (cap / totalHoras rows) := by
  unfold horasPreclamp horasAjuste participacion diferenciaHoras
  rw [if_neg (by simp [hT])]
  field_simp
  ring

lemma sum_horasPreclamp (rows : List MatRow) (cap : ℚ)
    (hT : totalHoras rows ≠ 0) :
    (rows.map (horasPreclamp rows cap)).sum = cap := by
  rw [List.map_congr_left (fun r _ => horasPreclamp_eq rows cap hT r)]
  rw [List.sum_map_mul_right]
  rw [show (rows.map horasNecesarias).sum = totalHoras rows from rfl]
  field_simp

/-- C3 (amended): for a week whose total required hours is nonzero (and
each material's units-per-hour nonzero, which keeps the exact model
faithful to the float code -- a units-per-hour of 0 makes the program
emit NaN allocations, see C1), the sum over materials of final allocated
hours equals the week's available hours when no demand-floor clamp
binds, and is always at least the available hours (so it strictly
exceeds them when a clamp strictly binds -- the clamp raises negative
allocations to zero, which can only increase the sum; the direction of
the original claim is reversed). -/
theorem asignacion_conservacion (rows : List MatRow) (turnos hps : ℚ)
    (hT : totalHoras rows ≠ 0) (_huph : ∀ r ∈ rows, r.uph ≠ 0) :
    ((∀ r ∈ rows, 0 ≤ horasPreclamp rows (horasCapacidad turnos hps) r) →
      sumaAsignadas rows (horasCapacidad turnos hps) = horasCapacidad turnos hps) ∧
    horasCapacidad turnos hps ≤ sumaAsignadas rows (horasCapacidad turnos hps) := by
  constructor
  · intro hnb
    unfold sumaAsignadas
    have hmap : List.map (horasFinalesAsignadas rows (horasCapacidad turnos hps)) rows =
        List.map (horasPreclamp rows (horasCapacidad turnos hps)) rows :=
      List.map_congr_left (fun r hr => by
        unfold horasFinalesAsignadas; exact max_eq_left (hnb r hr))
    rw [hmap]
    exact sum_horasPreclamp rows _ hT
  · calc horasCapacidad turnos hps
        = (rows.map (horasPreclamp rows (horasCapacidad turnos hps))).sum :=
          (sum_horasPreclamp rows _ hT).symm
      _ ≤ (rows.map (horasFinalesAsignadas rows (horasCapacidad turnos hps))).sum :=
          List.sum_le_sum (fun r _ => le_max_left _ _)
      _ = sumaAsignadas rows (horasCapacidad turnos hps) := rfl

/-- C3 witness: one material with demand 100 at 10 units/hour, 2 shifts
of 8 hours: the week total (10 hours) and the units-per-hour are
nonzero, and the allocated sum is at least the 16 available hours. -/
theorem asignacion_conservacion_witness :
    totalHoras [MatRow.mk 100 10] ≠ 0 ∧
    (∀ r ∈ [MatRow.mk 100 10], r.uph ≠ 0) ∧
    horasCapacidad 2 8 ≤ sumaAsignadas [MatRow.mk 100 10] (horasCapacidad 2 8) :=
  ⟨by norm_num [totalHoras, horasNecesarias],
    by intro r hr; simp only [List.mem_singleton] at hr; subst hr; norm_num,
    by exact (asignacion_conservacion [MatRow.mk 100 10] 2 8
      (by norm_num [totalHoras, horasNecesarias])
      (by intro r hr; simp only [List.mem_singleton] at hr; subst hr; norm_num)).2⟩

/-- C3 counterexample, refuting the claim as stated.  First input: one
material with zero demand (week total required hours 0) and 16 available
hours: no clamp binds, yet the allocated sum is 0, not 16.  Second
input: materials with required hours 10 and -2 and 16 available hours:
the clamp binds on the second material (pre-clamp allocation -4), and
the allocated sum is 20, which is NOT at most the available 16 hours. -/
theorem asignacion_conservacion_counterexample :
    ((∀ r ∈ [MatRow.mk 0 10],
        0 ≤ horasPreclamp [MatRow.mk 0 10] (horasCapacidad 2 8) r) ∧
      sumaAsignadas [MatRow.mk 0 10] (horasCapacidad 2 8) ≠ horasCapacidad 2 8) ∧
    ((∃ r ∈ [MatRow.mk 10 1, MatRow.mk (-2) 1],
        horasPreclamp [MatRow.mk 10 1, MatRow.mk (-2) 1] (horasCapacidad 2 8) r < 0) ∧
      ¬ sumaAsignadas [MatRow.mk 10 1, MatRow.mk (-2) 1] (horasCapacidad 2 8) ≤
          horasCapacidad 2 8) := by
  refine ⟨⟨?_, ?_⟩, ⟨⟨MatRow.mk (-2) 1, ?_, ?_⟩, ?_⟩⟩ <;>
    norm_num [sumaAsignadas, horasFinalesAsignadas, horasPreclamp, horasAjuste,
      participacion, diferenciaHoras, horasCapacidad, horasNecesarias, totalHoras]

/-- C4: in demand-driven mode the available shifts are the week's
required hours divided by the hours per shift, so the available hours
reproduce the required hours exactly and the per-week gap is zero.  The
hypotheses keep the exact-arithmetic model faithful to the float code:
hours-per-shift nonzero (else the float pipeline produces NaN, not 0)
and units-per-hour nonzero on every row. -/
theorem demanda_gap_cero (rows : List MatRow) (hps : ℚ)
    (hhps : hps ≠ 0) (_huph : ∀ r ∈ rows, r.uph ≠ 0) :
    diferenciaHoras (horasCapacidad (turnosDemanda rows hps) hps)
      (totalHoras rows) = 0 := by
  unfold diferenciaHoras horasCapacidad turnosDemanda
  rw [div_mul_cancel₀ _ hhps, sub_self]

/-- C4 witness: one material, demand 100 at 10 units/hour, 8-hour
shifts. -/
theorem demanda_gap_cero_witness :
    (8 : ℚ) ≠ 0 ∧ (∀ r ∈ [MatRow.mk 100 10], r.uph ≠ 0) ∧
    diferenciaHoras (horasCapacidad (turnosDemanda [MatRow.mk 100 10] 8) 8)
      (totalHoras [MatRow.mk 100 10]) = 0 :=
  ⟨by norm_num, by intro r hr; simp only [List.mem_singleton] at hr; subst hr; norm_num,
    demanda_gap_cero [MatRow.mk 100 10] 8 (by norm_num)
      (by intro r hr; simp only [List.mem_singleton] at hr; subst hr; norm_num)⟩

/-! ### Rollforward lemmas -/

@[simp] lemma stepRow_material (q v : ℚ) (r : RowIn) :
    (stepRow q v r).material = r.material := rfl

@[simp] lemma stepRow_demanda (q v : ℚ) (r : RowIn) :
    (stepRow q v r).demanda = r.demanda := rfl

@[simp] lemma stepRow_invIni (q v : ℚ) (r : RowIn) :
    (stepRow q v r).invIni = r.invIni := rfl

@[simp] lemma stepRow_valIni (q v : ℚ) (r : RowIn) :
    (stepRow q v r).valIni = r.valIni := rfl

@[simp] lemma stepRow_qtyProd (q v : ℚ) (r : RowIn) :
    (stepRow q v r).qtyProd = r.qtyProd := rfl

@[simp] lemma stepRow_costProd (q v : ℚ) (r : RowIn) :
    (stepRow q v r).costProd = r.costProd := rfl

@[simp] lemma stepRow_invInicialUnd (q v : ℚ) (r : RowIn) :
    (stepRow q v r).invInicialUnd = q := rfl

@[simp] lemma stepRow_invInicialValor (q v : ℚ) (r : RowIn) :
    (stepRow q v r).invInicialValor = v := rfl

lemma stepRow_wac (q v : ℚ) (r : RowIn) :
    (stepRow q v r).wac =
      if 0 < q + r.qtyProd then (v + r.qtyProd * r.costProd) / (q + r.qtyProd)
      else r.costProd := rfl

lemma stepRow_qtySold (q v : ℚ) (r : RowIn) :
    (stepRow q v r).qtySold = min r.demanda (q + r.qtyProd) := rfl

lemma stepRow_invFinalUnd (q v : ℚ) (r : RowIn) :
    (stepRow q v r).invFinalUnd =
      q + r.qtyProd - min r.demanda (q + r.qtyProd) := rfl

lemma stepRow_invFinalValor (q v : ℚ) (r : RowIn) :
    (stepRow q v r).invFinalValor =
      (q + r.qtyProd - min r.demanda (q + r.qtyProd)) * (stepRow q v r).wac := rfl

lemma stepRow_cogs (q v : ℚ) (r : RowIn) :
    (stepRow q v r).cogs = min r.demanda (q + r.qtyProd) * (stepRow q v r).wac := rfl

/-- Every row the rollforward emits is a stepRow output. -/
lemma mem_rollforwardAux_shape (l : List RowIn) :
    ∀ (prev : Option (String × ℚ × ℚ)) (o : RowOut),
      o ∈ rollforwardAux prev l → ∃ q v r, o = stepRow q v r := by
  induction l with
  | nil => intro prev o h; simp [rollforwardAux.eq_def] at h
  | cons r rest ih =>
    intro prev o h
    rw [rollforwardAux.eq_def] at h
    rcases List.mem_cons.mp h with h1 | h2
    · exact ⟨_, _, r, h1⟩
    · exact ih _ o h2

/-- The chain invariant of the loop, for an arbitrary carried state. -/
lemma rollforwardAux_chain (l : List RowIn) :
    ∀ (m : String) (q v : ℚ),
      List.Chain' contig (rollforwardAux (some (m, q, v)) l) := by
  induction l with
  | nil => intro m q v; simp [rollforwardAux]
  | cons r rest ih =>
    intro m q v
    rw [rollforwardAux]
    rw [List.chain'_cons']
    refine ⟨?_, ih r.material _ _⟩
    intro y hy
    cases rest with
    | nil => simp [rollforwardAux] at hy
    | cons r2 rest2 =>
      rw [rollforwardAux] at hy
      simp only [List.head?_cons, Option.mem_def, Option.some.injEq] at hy
      subst hy
      by_cases hm : r2.material = r.material <;>
        constructor <;> intro hmat <;> simp_all [contig]

/-- The same invariant from the initial (none) state. -/
lemma rollforward_chain (l : List RowIn) :
    List.Chain' contig (rollforward l) := by
  unfold rollforward
  cases l with
  | nil => simp [rollforwardAux]
  | cons r rest =>
    rw [rollforwardAux]
    rw [List.chain'_cons']
    refine ⟨?_, rollforwardAux_chain rest r.material _ _⟩
    intro y hy
    cases rest with
    | nil => simp [rollforwardAux] at hy
    | cons r2 rest2 =>
      rw [rollforwardAux] at hy
      simp only [List.head?_cons, Option.mem_def, Option.some.injEq] at hy
      subst hy
      by_cases hm : r2.material = r.material <;>
        constructor <;> intro hmat <;> simp_all [contig]

/-- C2: in the rollforward output (rows pre-sorted by material and
ascending week, so consecutive records of one material are consecutive
weeks), every record of the same material as its predecessor opens with
the predecessor's closing quantity and value, every record starting a
new material opens with its static opening inventory from the capacity
table, and the very first record opens with its static opening
inventory. -/
theorem rollforward_continuidad (l : List RowIn) :
    List.Chain' contig (rollforward l) ∧
    ∀ o ∈ (rollforward l).head?,
      o.invInicialUnd = o.invIni ∧ o.invInicialValor = o.valIni := by
  refine ⟨rollforward_chain l, ?_⟩
  intro o ho
  cases l with
  | nil => simp [rollforward, rollforwardAux] at ho
  | cons r rest =>
    unfold rollforward at ho
    rw [rollforwardAux] at ho
    simp only [List.head?_cons, Option.mem_def, Option.some.injEq] at ho
    subst ho
    simp

/-- C2 witness: a single material row; its first (and only) record opens
with the static opening inventory (quantity 5, value 0). -/
theorem rollforward_continuidad_witness :
    (stepRow 5 0 (RowIn.mk "A" 100 5 0 10 2)).invInicialUnd =
      (stepRow 5 0 (RowIn.mk "A" 100 5 0 10 2)).invIni :=
  ((rollforward_continuidad [RowIn.mk "A" 100 5 0 10 2]).2
    (stepRow 5 0 (RowIn.mk "A" 100 5 0 10 2))
    (by simp [rollforward, rollforwardAux])).1

/-- C5: on every emitted row the quantity sold is the minimum of the
row's demand and the on-hand supply (opening plus produced quantity), so
sales never exceed supply; the carried state is only (closing quantity,
closing value), so unmet demand is not carried to later weeks. -/
theorem ventas_min (l : List RowIn) :
    ∀ o ∈ rollforward l,
      o.qtySold = min o.demanda (o.invInicialUnd + o.qtyProd) ∧
      o.qtySold ≤ o.invInicialUnd + o.qtyProd := by
  intro o ho
  obtain ⟨q, v, r, rfl⟩ := mem_rollforwardAux_shape l none o ho
  exact ⟨rfl, by rw [stepRow_qtySold]; simp [min_le_right]⟩

/-- C5 witness: demand 100 against opening 5 plus produced 10; the
quantity sold is capped by the supply. -/
theorem ventas_min_witness :
    (stepRow 5 0 (RowIn.mk "M" 100 5 0 10 2)).qtySold ≤
      (stepRow 5 0 (RowIn.mk "M" 100 5 0 10 2)).invInicialUnd +
        (stepRow 5 0 (RowIn.mk "M" 100 5 0 10 2)).qtyProd :=
  (ventas_min [RowIn.mk "M" 100 5 0 10 2]
    (stepRow 5 0 (RowIn.mk "M" 100 5 0 10 2))
    (by simp [rollforward, rollforwardAux])).2

lemma stepRow_wac_nonneg (q v : ℚ) (r : RowIn)
    (hv : 0 ≤ v) (hq : 0 ≤ r.qtyProd) (hc : 0 ≤ r.costProd) :
    0 ≤ (stepRow q v r).wac := by
  rw [stepRow_wac]
  split_ifs with h
  · exact div_nonneg (add_nonneg hv (mul_nonneg hq hc)) h.le
  · exact hc

lemma stepRow_invFinalValor_nonneg (q v : ℚ) (r : RowIn)
    (hv : 0 ≤ v) (hq : 0 ≤ r.qtyProd) (hc : 0 ≤ r.costProd) :
    0 ≤ (stepRow q v r).invFinalValor := by
  rw [stepRow_invFinalValor]
  exact mul_nonneg (sub_nonneg.mpr (min_le_right _ _))
    (stepRow_wac_nonneg q v r hv hq hc)

/-- Under a nonnegative carried closing value and nonnegative inputs,
every emitted weighted-average cost is nonnegative. -/
lemma rollforwardAux_wac_nonneg (l : List RowIn) :
    ∀ (prev : Option (String × ℚ × ℚ)),
      (∀ m q v, prev = some (m, q, v) → 0 ≤ v) →
      (∀ r ∈ l, 0 ≤ r.valIni ∧ 0 ≤ r.qtyProd ∧ 0 ≤ r.costProd) →
      ∀ o ∈ rollforwardAux prev l, 0 ≤ o.wac := by
  induction l with
  | nil => intro prev _ _ o ho; simp [rollforwardAux.eq_def] at ho
  | cons r rest ih =>
    intro prev hprev hl o ho
    obtain ⟨hr, hrest⟩ : (0 ≤ r.valIni ∧ 0 ≤ r.qtyProd ∧ 0 ≤ r.costProd) ∧
        ∀ x ∈ rest, 0 ≤ x.valIni ∧ 0 ≤ x.qtyProd ∧ 0 ≤ x.costProd := by
      constructor
      · exact hl r (List.mem_cons_self r rest)
      · exact fun x hx => hl x (List.mem_cons_of_mem r hx)
    rcases prev with _ | ⟨m, q, v⟩
    · rw [rollforwardAux] at ho
      rcases List.mem_cons.mp ho with h1 | h2
      · subst h1
        exact stepRow_wac_nonneg _ _ r hr.1 hr.2.1 hr.2.2
      · have hnew : ∀ (m2 : String) (q2 v2 : ℚ),
            (some (r.material,
              (stepRow (r.invIni, r.valIni).1 (r.invIni, r.valIni).2 r).invFinalUnd,
              (stepRow (r.invIni, r.valIni).1 (r.invIni, r.valIni).2 r).invFinalValor) :
                Option (String × ℚ × ℚ)) = some (m2, q2, v2) → 0 ≤ v2 := by
          intro m2 q2 v2 hsome
          simp only [Option.some.injEq, Prod.mk.injEq] at hsome
          rw [← hsome.2.2]
          exact stepRow_invFinalValor_nonneg _ _ r hr.1 hr.2.1 hr.2.2
        exact ih _ hnew hrest o h2
    · have hv : 0 ≤ v := hprev m q v rfl
      rw [rollforwardAux] at ho
      by_cases hm : r.material = m
      · rw [if_pos hm] at ho
        rcases List.mem_cons.mp ho with h1 | h2
        · subst h1
          exact stepRow_wac_nonneg _ _ r hv hr.2.1 hr.2.2
        · have hnew : ∀ (m2 : String) (q2 v2 : ℚ),
              (some (r.material,
                (stepRow (q, v).1 (q, v).2 r).invFinalUnd,
                (stepRow (q, v).1 (q, v).2 r).invFinalValor) :
                  Option (String × ℚ × ℚ)) = some (m2, q2, v2) → 0 ≤ v2 := by
            intro m2 q2 v2 hsome
            simp only [Option.some.injEq, Prod.mk.injEq] at hsome
            rw [← hsome.2.2]
            exact stepRow_invFinalValor_nonneg _ _ r hv hr.2.1 hr.2.2
          exact ih _ hnew hrest o h2
      · rw [if_neg hm] at ho
        rcases List.mem_cons.mp ho with h1 | h2
        · subst h1
          exact stepRow_wac_nonneg _ _ r hr.1 hr.2.1 hr.2.2
        · have hnew : ∀ (m2 : String) (q2 v2 : ℚ),
              (some (r.material,
                (stepRow (r.invIni, r.valIni).1 (r.invIni, r.valIni).2 r).invFinalUnd,
                (stepRow (r.invIni, r.valIni).1 (r.invIni, r.valIni).2 r).invFinalValor) :
                  Option (String × ℚ × ℚ)) = some (m2, q2, v2) → 0 ≤ v2 := by
            intro m2 q2 v2 hsome
            simp only [Option.some.injEq, Prod.mk.injEq] at hsome
            rw [← hsome.2.2]
            exact stepRow_invFinalValor_nonneg _ _ r hr.1 hr.2.1 hr.2.2
          exact ih _ hnew hrest o h2

/-- C6: on every emitted row the weighted-average cost is the total
value over the total quantity when the total quantity is strictly
positive and the row's unit total cost when the total quantity is zero
(the guard of line 245, so the WAC is never a 0/0); under nonnegative
inputs every WAC is nonnegative (and, being a rational, finite). -/
theorem wac_definicion_y_cotas (l : List RowIn)
    (h : ∀ r ∈ l, 0 ≤ r.demanda ∧ 0 ≤ r.invIni ∧ 0 ≤ r.valIni ∧
      0 ≤ r.qtyProd ∧ 0 ≤ r.costProd) :
    ∀ o ∈ rollforward l,
      (0 < o.invInicialUnd + o.qtyProd →
        o.wac = (o.invInicialValor + o.qtyProd * o.costProd) /
          (o.invInicialUnd + o.qtyProd)) ∧
      (o.invInicialUnd + o.qtyProd = 0 → o.wac = o.costProd) ∧
      0 ≤ o.wac := by
  intro o ho
  refine ⟨?_, ?_, ?_⟩
  · intro hpos
    obtain ⟨q, v, r, rfl⟩ := mem_rollforwardAux_shape l none o ho
    simp only [stepRow_invInicialUnd, stepRow_qtyProd] at hpos
    rw [stepRow_wac, if_pos hpos]
    simp
  · intro hz
    obtain ⟨q, v, r, rfl⟩ := mem_rollforwardAux_shape l none o ho
    simp only [stepRow_invInicialUnd, stepRow_qtyProd] at hz
    rw [stepRow_wac, if_neg (by rw [hz]; exact lt_irrefl 0)]
    simp
  · refine rollforwardAux_wac_nonneg l none (fun m q v hsome => by cases hsome)
      (fun r hr => ?_) o ho
    obtain ⟨_, _, h3, h4, h5⟩ := h r hr
    exact ⟨h3, h4, h5⟩

/-- C6 witness: opening (5 units, value 0), 10 produced units at unit
total cost 2; the WAC of the single emitted row is nonnegative. -/
theorem wac_definicion_y_cotas_witness :
    0 ≤ (stepRow 5 0 (RowIn.mk "M" 100 5 0 10 2)).wac :=
  (wac_definicion_y_cotas [RowIn.mk "M" 100 5 0 10 2]
    (by intro r hr; simp only [List.mem_singleton] at hr; subst hr
        refine ⟨by norm_num, by norm_num, by norm_num, by norm_num, by norm_num⟩)
    (stepRow 5 0 (RowIn.mk "M" 100 5 0 10 2))
    (by simp [rollforward, rollforwardAux])).2.2

/-- C9: on every emitted row with strictly positive total available
quantity, the closing inventory value equals the opening value plus the
produced value (produced quantity times unit total cost) minus the cost
of goods sold: the rollforward conserves inventory value. -/
theorem valor_inventario_conservado (l : List RowIn) :
    ∀ o ∈ rollforward l, 0 < o.invInicialUnd + o.qtyProd →
      o.invFinalValor = o.invInicialValor + o.qtyProd * o.costProd - o.cogs := by
  intro o ho hpos
  obtain ⟨q, v, r, rfl⟩ := mem_rollforwardAux_shape l none o ho
  simp only [stepRow_invInicialUnd, stepRow_qtyProd] at hpos
  rw [stepRow_invFinalValor, stepRow_cogs, stepRow_wac, if_pos hpos,
    stepRow_invInicialValor, stepRow_qtyProd, stepRow_costProd]
  field_simp
  ring

/-- C9 witness: opening (5 units, value 0), 10 produced units at cost 2,
demand 100: the total quantity 15 is positive and the closing value
satisfies the conservation identity. -/
theorem valor_inventario_conservado_witness :
    0 < (stepRow 5 0 (RowIn.mk "M" 100 5 0 10 2)).invInicialUnd +
        (stepRow 5 0 (RowIn.mk "M" 100 5 0 10 2)).qtyProd ∧
    (stepRow 5 0 (RowIn.mk "M" 100 5 0 10 2)).invFinalValor =
      (stepRow 5 0 (RowIn.mk "M" 100 5 0 10 2)).invInicialValor +
        (stepRow 5 0 (RowIn.mk "M" 100 5 0 10 2)).qtyProd *
          (stepRow 5 0 (RowIn.mk "M" 100 5 0 10 2)).costProd -
        (stepRow 5 0 (RowIn.mk "M" 100 5 0 10 2)).cogs :=
  ⟨by norm_num [stepRow_invInicialUnd, stepRow_qtyProd],
    valor_inventario_conservado [RowIn.mk "M" 100 5 0 10 2]
      (stepRow 5 0 (RowIn.mk "M" 100 5 0 10 2))
      (by simp [rollforward, rollforwardAux])
      (by norm_num [stepRow_invInicialUnd, stepRow_qtyProd])⟩

/-! ### Comparison-table lemmas -/

lemma mem_insertaAsc (e x : Escenario) :
    ∀ l, x ∈ insertaAsc e l ↔ x = e ∨ x ∈ l := by
  intro l
  induction l with
  | nil => simp [insertaAsc]
  | cons f fs ih =>
    rw [insertaAsc]
    split_ifs with h
    · simp [List.mem_cons]
    · simp only [List.mem_cons, ih]
      tauto

lemma insertaAsc_ne_nil (e : Escenario) (l : List Escenario) :
    insertaAsc e l ≠ [] := by
  cases l with
  | nil => simp [insertaAsc]
  | cons f fs => rw [insertaAsc]; split_ifs <;> simp

lemma mem_ordenaPorImpacto (x : Escenario) :
    ∀ l, x ∈ ordenaPorImpacto l ↔ x ∈ l := by
  intro l
  induction l with
  | nil => simp [ordenaPorImpacto]
  | cons e es ih =>
    rw [ordenaPorImpacto]
    rw [mem_insertaAsc]
    simp only [List.mem_cons, ih]

lemma ordenaPorImpacto_ne_nil (l : List Escenario) (h : l ≠ []) :
    ordenaPorImpacto l ≠ [] := by
  cases l with
  | nil => exact absurd rfl h
  | cons e es => rw [ordenaPorImpacto]; exact insertaAsc_ne_nil e _

lemma insertaAsc_headMin (e : Escenario) (l : List Escenario)
    (hl : ∀ y, l.head? = some y → ∀ x ∈ l,
      impactoTotalFCL y ≤ impactoTotalFCL x) :
    ∀ y, (insertaAsc e l).head? = some y → ∀ x ∈ insertaAsc e l,
      impactoTotalFCL y ≤ impactoTotalFCL x := by
  cases l with
  | nil =>
    intro y hy x hx
    simp only [insertaAsc, List.head?_cons, Option.some.injEq] at hy
    subst hy
    simp only [insertaAsc, List.mem_singleton] at hx
    subst hx
    exact le_refl _
  | cons f fs =>
    rw [insertaAsc]
    split_ifs with h
    · intro y hy x hx
      simp only [List.head?_cons, Option.some.injEq] at hy
      subst hy
      rcases List.mem_cons.mp hx with rfl | hx2
      · exact le_refl _
      · rcases List.mem_cons.mp hx2 with rfl | hx3
        · exact h
        · exact h.trans (hl f rfl x (List.mem_cons_of_mem f hx3))
    · intro y hy x hx
      simp only [List.head?_cons, Option.some.injEq] at hy
      subst hy
      rcases List.mem_cons.mp hx with rfl | hx2
      · exact le_refl _
      · rcases (mem_insertaAsc e x fs).mp hx2 with rfl | hx3
        · exact (not_le.mp h).le
        · exact hl f rfl x (List.mem_cons_of_mem f hx3)

lemma ordenaPorImpacto_headMin (l : List Escenario) :
    ∀ y, (ordenaPorImpacto l).head? = some y → ∀ x ∈ ordenaPorImpacto l,
      impactoTotalFCL y ≤ impactoTotalFCL x := by
  induction l with
  | nil => intro y hy; simp [ordenaPorImpacto] at hy
  | cons e es ih =>
    rw [ordenaPorImpacto]
    exact insertaAsc_headMin e _ ih

/-- C7: the total cash-flow impact of every scenario is its COGS total
plus its capital-cost total plus its inventory-value delta (last minus
first week's average-inventory valuation metric); the scenario reported
as best (first row after the ascending sort) has the lowest total
impact among all scenarios; and the reported savings (worst minus best)
are nonnegative. -/
theorem comparativa_ranking (l : List Escenario) (hl : l ≠ []) :
    (∀ e ∈ l, impactoTotalFCL e =
      cmvTotal e + costoCapitalTotal e + deltaValorInv e) ∧
    (∀ b, mejorEscenario l = some b → ∀ x ∈ l,
      impactoTotalFCL b ≤ impactoTotalFCL x) ∧
    0 ≤ ahorro l := by
  refine ⟨fun e _ => rfl, ?_, ?_⟩
  · intro b hb x hx
    exact ordenaPorImpacto_headMin l b hb x ((mem_ordenaPorImpacto x l).mpr hx)
  · have hon : ordenaPorImpacto l ≠ [] := ordenaPorImpacto_ne_nil l hl
    obtain ⟨b, hb⟩ : ∃ b, (ordenaPorImpacto l).head? = some b := by
      cases hh : (ordenaPorImpacto l).head? with
      | none => exact absurd (List.head?_eq_none_iff.mp hh) hon
      | some b => exact ⟨b, rfl⟩
    obtain ⟨w, hw⟩ : ∃ w, (ordenaPorImpacto l).getLast? = some w := by
      cases hh : (ordenaPorImpacto l).getLast? with
      | none => exact absurd (List.getLast?_eq_none_iff.mp hh) hon
      | some w => exact ⟨w, rfl⟩
    unfold ahorro mejorEscenario peorEscenario
    rw [hb, hw]
    exact sub_nonneg.mpr (ordenaPorImpacto_headMin l b hb w
      (List.mem_of_mem_getLast? hw))

/-- C7 witness: two one-week scenarios; the savings figure is
nonnegative. -/
theorem comparativa_ranking_witness :
    ([Escenario.mk "A" [SemWeek.mk 1 1 1], Escenario.mk "B" [SemWeek.mk 2 1 1]] :
      List Escenario) ≠ [] ∧
    0 ≤ ahorro [Escenario.mk "A" [SemWeek.mk 1 1 1],
      Escenario.mk "B" [SemWeek.mk 2 1 1]] :=
  ⟨by simp, (comparativa_ranking
    [Escenario.mk "A" [SemWeek.mk 1 1 1], Escenario.mk "B" [SemWeek.mk 2 1 1]]
    (by simp)).2.2⟩

/-- C8 (amended): the resolver returns the caller-supplied default when
no row's stripped name matches, and otherwise applies the float coercion
of lines 147-149 to the first matching row's value; for a text value
whose comma-to-period replacement does not parse as a float, that
coercion returns the replaced text (the rebound variable valor of line
147), not the original raw cell text.  The function is total, so no
error is raised. -/
theorem obtener_param_caracterizacion (tabla : List (String × CellVal))
    (nombre : String) (default : PyVal) :
    ((∀ p ∈ tabla, pyStrip p.1 ≠ nombre) →
      obtener_param tabla nombre default = default) ∧
    (∀ i (hi : i < tabla.length),
      pyStrip tabla[i].1 = nombre →
      (∀ j (hj : j < i), pyStrip tabla[j].1 ≠ nombre) →
      obtener_param tabla nombre default = coerceVal tabla[i].2) := by
  constructor
  · intro h
    unfold obtener_param
    have hf : tabla.find? (fun p => pyStrip p.1 == nombre) = Option.none := by
      rw [List.find?_eq_none]
      intro p hp
      simpa using h p hp
    rw [hf]
  · intro i hi hmatch hfirst
    unfold obtener_param
    have hf : tabla.find? (fun p => pyStrip p.1 == nombre) =
        Option.some tabla[i] := by
      rw [List.find?_eq_some_iff_getElem]
      refine ⟨by simpa using hmatch, i, hi, rfl, ?_⟩
      intro j hj
      simpa using hfirst j hj
    rw [hf]

/-- C8 witness: the single-row table resolves its own parameter through
the coercion of the first (index 0) match. -/
theorem obtener_param_caracterizacion_witness :
    obtener_param [("Horas por turno", CellVal.str "7,5")] "Horas por turno"
      PyVal.none = coerceVal (CellVal.str "7,5") :=
  (obtener_param_caracterizacion [("Horas por turno", CellVal.str "7,5")]
    "Horas por turno" PyVal.none).2 0 (by norm_num) (by decide)
    (fun j hj => absurd hj (Nat.not_lt_zero j))

/-- C8 counterexample, refuting the claim as stated: for the parameter
value "1,2,3" the comma-replaced text "1.2.3" does not convert to a
float, and the resolver returns "1.2.3" -- the replaced text, which
differs from the raw value "1,2,3" the claim promises. -/
theorem obtener_param_contraejemplo :
    obtener_param [("P", CellVal.str "1,2,3")] "P" PyVal.none =
      PyVal.str "1.2.3" ∧
    PyVal.str "1.2.3" ≠ PyVal.str "1,2,3" :=
  ⟨rfl, by decide⟩

/-- C10: the constrained scenario is computed exactly when the
availability table has a "Paro programado" column, the unconstrained one
exactly when it has a "No paro" column, and the demand-driven scenario
is always computed, so the run never aborts for a missing availability
column and the scenario count is 1 plus one per present column. -/
theorem escenarios_por_columnas (hayParo hayNoParo : Bool) :
    (("Paro Programado" ∈ escenariosEjecutados hayParo hayNoParo) ↔
      hayParo = true) ∧
    (("No Paro (Full)" ∈ escenariosEjecutados hayParo hayNoParo) ↔
      hayNoParo = true) ∧
    "Siguiendo Demanda" ∈ escenariosEjecutados hayParo hayNoParo ∧
    escenariosEjecutados hayParo hayNoParo ≠ [] ∧
    (escenariosEjecutados hayParo hayNoParo).length =
      (cond hayParo 1 0) + (cond hayNoParo 1 0) + 1 := by
  cases hayParo <;> cases hayNoParo <;> simp [escenariosEjecutados]

/-- C1 (amended): the required-hours division of line 176 has no guard:
for any nonzero demand over zero units-per-hour the required hours are a
signed infinity (not finite), and the non-numeric value propagates into
the emitted final allocated hours, which become NaN for any finite
shifts and hours-per-shift (the fillna guard of line 196 resets only the
participation share, after which 0 times the infinite gap is NaN). -/
theorem horas_necesarias_sin_guardia (d t h : ℚ) (hd : d ≠ 0) :
    FVal.isFin (fHorasNecesarias (FRow.mk (FVal.fin d) (FVal.fin 0))) = false ∧
    fAsignadas [FRow.mk (FVal.fin d) (FVal.fin 0)] (FVal.fin t) (FVal.fin h) =
      [FVal.nan] := by
  rcases lt_or_gt_of_ne hd with hneg | hpos
  · simp [fAsignadas, fTotalHoras, fHorasNecesarias, fHorasCapacidad,
      fDiferenciaHoras, fParticipacion, fHorasAjuste, fHorasFinales,
      FVal.lsum, FVal.div, FVal.add, FVal.mul, FVal.sub, FVal.neg,
      FVal.fillna, FVal.pymaxZero, FVal.gtb, FVal.isFin, hd, hneg,
      lt_asymm hneg]
  · simp [fAsignadas, fTotalHoras, fHorasNecesarias, fHorasCapacidad,
      fDiferenciaHoras, fParticipacion, fHorasAjuste, fHorasFinales,
      FVal.lsum, FVal.div, FVal.add, FVal.mul, FVal.sub, FVal.neg,
      FVal.fillna, FVal.pymaxZero, FVal.gtb, FVal.isFin, hd, hpos,
      lt_asymm hpos]

/-- C1 witness: demand 100 at 0 units/hour, 10 shifts of 8 hours. -/
theorem horas_necesarias_sin_guardia_witness :
    (100 : ℚ) ≠ 0 ∧
    fAsignadas [FRow.mk (FVal.fin 100) (FVal.fin 0)] (FVal.fin 10)
      (FVal.fin 8) = [FVal.nan] :=
  ⟨by norm_num, (horas_necesarias_sin_guardia 100 10 8 (by norm_num)).2⟩

/-- C1 counterexample, refuting the claim as stated: with units-per-hour
0 and demand 100 the required hours of line 176 are +infinity, and the
emitted Horas_Finales_Asignadas column of the same pipeline is NaN --
a non-numeric value reaching an emitted, downstream-aggregated field. -/
theorem horas_necesarias_sin_guardia_contraejemplo :
    fHorasNecesarias (FRow.mk (FVal.fin 100) (FVal.fin 0)) = FVal.inf ∧
    fAsignadas [FRow.mk (FVal.fin 100) (FVal.fin 0)] (FVal.fin 10)
      (FVal.fin 8) = [FVal.nan] ∧
    FVal.isFin FVal.inf = false ∧ FVal.isFin FVal.nan = false := by
  refine ⟨by decide, by decide, rfl, rfl⟩

end Noel
